import Mathlib

/-!
# Layered method dispatch of `yep/models/rc_methods.go`

Shallow embedding of `RecordCollection.Call`, `CallMulti`, `getExistingLayer`,
`Super`, `MethodType` and `callMulti`, and theorems about the call-stack
discipline they implement.

Conventions of the embedding.

* A Go panic raised through `logging.LogAndPanic` is the `Except.error` branch,
  carrying the message and the key/value context of the call.
* The reflective invocation `methLayer.funcValue.Call(inVals)[0]` is external
  code with side effects. It is a parameter `invoke` that threads an arbitrary
  world state `σ`; a theorem quantified over `σ`, `invoke` and the initial
  world therefore speaks about every possible layer implementation, and the
  final world tells which invocations took place.
* `RecordCollection` is passed by value in Go, so the assignment to
  `rc.callStack` inside `CallMulti` and `Super` updates a copy: the embedding
  builds a new record.
-/

namespace Yep

/-! ## Data model -/

/-- Modelled from the spec: the type `methodInfo` is declared outside
`rc_methods.go`. It is the Operation Chain of spec section 3: an ordered
sequence of layers, index 0 being the most specific (topmost) layer and the
last one the base implementation. Each entry of `layers` is the opaque callable
value of one layer. `name` and `methodType` are the two fields the source
reads. A `*methodInfo` pointer is represented by the value itself, pointer
equality by equality of values. -/
structure methodInfo where
  name : String
  methodType : Nat
  layers : List Nat
  deriving DecidableEq, Repr

/-- Modelled from the spec: the type `methodLayer` is declared outside
`rc_methods.go`. A `*methodLayer` is a position in a chain (spec section 3,
Dispatch Frame: a reference to the chain plus an index into its layer
sequence); `methInfo` is the reference back to the chain that the source reads
as `ml.methInfo`. -/
structure methodLayer where
  methInfo : methodInfo
  index : Nat
  deriving DecidableEq, Repr

/-- Modelled from the spec: field `funcValue` of `methodLayer`, the opaque
callable held by the layer. It is absent when the position lies outside the
chain, which corresponds to a nil layer pointer in Go. -/
def methodLayer.funcValue (ml : methodLayer) : Option Nat :=
  ml.methInfo.layers.get? ml.index

/-- Modelled from the spec: field `topLayer` of `methodInfo`, the most
specific layer of the chain, which is the layer at index 0. -/
def methodInfo.topLayer (methInfo : methodInfo) : methodLayer :=
  { methInfo := methInfo, index := 0 }

/-- Modelled from the spec: `methodInfo.getNextLayer` is defined outside
`rc_methods.go`. It returns the layer that follows the given one in the chain,
moving from more specific toward the base, and nil (`none`) for the base layer
and for a layer that does not belong to this chain. -/
def methodInfo.getNextLayer (methInfo : methodInfo) (ml : methodLayer) :
    Option methodLayer :=
  if ml.methInfo = methInfo ∧ ml.index + 1 < methInfo.layers.length then
    some { methInfo := methInfo, index := ml.index + 1 }
  else
    none

/-- Modelled from the spec: the method registry of a model (spec section 4.1)
is declared outside `rc_methods.go`. It maps an operation name to its chain. -/
structure methodsCollection where
  registry : List methodInfo
  deriving DecidableEq, Repr

/-- Modelled from the spec: `get(opName) -> (chain, found)` of spec section
4.1, a lookup by name. -/
def methodsCollection.get (ms : methodsCollection) (methName : String) :
    Option methodInfo :=
  ms.registry.find? (fun methInfo => methInfo.name == methName)

/-- Modelled from the spec: the model (entity kind) a record collection belongs
to; the source reads its `name` and its `methods`. -/
structure modelInfo where
  name : String
  methods : methodsCollection
  deriving DecidableEq, Repr

/-- Modelled from the spec: the record handle of spec section 6. The source
reads `model` and `callStack`; `handle` stands for every other field, which
this file never inspects. The call stack is ordered most recently entered
first. -/
structure RecordCollection where
  model : modelInfo
  callStack : List methodLayer
  handle : Nat
  deriving DecidableEq, Repr

/-- Values of type `interface{}` exchanged with layer implementations. -/
inductive Value where
  | null : Value
  | int (n : Int) : Value
  | str (s : String) : Value
  | rc (r : RecordCollection) : Value
  deriving DecidableEq, Repr

/-- A panic: the message given to `logging.LogAndPanic` and its key/value
context. -/
structure Panic where
  msg : String
  ctx : List (String × String)
  deriving DecidableEq, Repr

/-- Embedding of `logging.LogAndPanic(log, msg, keyvals...)`. -/
def LogAndPanic (msg : String) (ctx : List (String × String)) : Panic :=
  { msg := msg, ctx := ctx }

/-- The runtime panic of Go for a nil pointer dereference. -/
def nilDereference : Panic :=
  { msg := "runtime error: invalid memory address or nil pointer dereference", ctx := [] }

/-- The reflective call `funcValue.Call(inVals)[0]`: given the callable, the
assembled arguments and the world, it yields the returned slice (or the panic
raised by the implementation) and the new world. -/
abbrev Invoker (σ : Type) := Nat → List Value → σ → Except Panic (List Value) × σ

/-! ## Operations of `rc_methods.go` -/

/-- The loop of lines 102-104 of `callMulti`, started at index `i`: each
remaining argument is stored at position `i + 1` of `inVals`. -/
def fillInVals : List Value → Nat → List Value → List Value
  | [], _, inVals => inVals
  | arg :: rest, i, inVals => fillInVals rest (i + 1) (inVals.set (i + 1) arg)

/-- Embedding of `RecordCollection.callMulti` (lines 98-113): allocate `inVals`
with `len(args)+1` cells, store the record collection in cell 0 and the
arguments behind it, call the layer function, copy the returned slice element
by element. -/
def RecordCollection.callMulti {σ : Type} (invoke : Invoker σ) (rc : RecordCollection)
    (methLayer : methodLayer) (args : List Value) (w : σ) :
    Except Panic (List Value) × σ :=
  let inVals := List.replicate (args.length + 1) Value.null
  let inVals := inVals.set 0 (Value.rc rc)
  let inVals := fillInVals args 0 inVals
  match methLayer.funcValue with
  | none => (Except.error nilDereference, w)
  | some fn =>
    match invoke fn inVals w with
    | (Except.error p, w1) => (Except.error p, w1)
    | (Except.ok retVal, w1) =>
      (Except.ok ((List.range retVal.length).map (fun i => retVal.getD i Value.null)), w1)

/-- Embedding of `RecordCollection.getExistingLayer` (lines 48-57): the first
layer of the call stack whose chain is `methInfo`, nil (`none`) if there is
none. -/
def RecordCollection.getExistingLayer (rc : RecordCollection) (methInfo : methodInfo) :
    Option methodLayer :=
  rc.callStack.find? (fun ml => decide (ml.methInfo = methInfo))

/-- Embedding of `RecordCollection.CallMulti` (lines 33-46). -/
def RecordCollection.CallMulti {σ : Type} (invoke : Invoker σ) (rc : RecordCollection)
    (methName : String) (args : List Value) (w : σ) :
    Except Panic (List Value) × σ :=
  match rc.model.methods.get methName with
  | none =>
    (Except.error (LogAndPanic "Unknown method in model"
      [("method", methName), ("model", rc.model.name)]), w)
  | some methInfo =>
    match rc.getExistingLayer methInfo with
    | some methLayer => rc.callMulti invoke methLayer args w
    | none =>
      let methLayer := methInfo.topLayer
      let rc1 := { rc with callStack := methLayer :: rc.callStack }
      rc1.callMulti invoke methLayer args w

/-- Embedding of `RecordCollection.Call` (lines 23-31). -/
def RecordCollection.Call {σ : Type} (invoke : Invoker σ) (rc : RecordCollection)
    (methName : String) (args : List Value) (w : σ) : Except Panic Value × σ :=
  match rc.CallMulti invoke methName args w with
  | (Except.error p, w1) => (Except.error p, w1)
  | (Except.ok res, w1) =>
    match res with
    | [] => (Except.ok Value.null, w1)
    | r :: _ => (Except.ok r, w1)

/-- Embedding of `RecordCollection.Super` (lines 59-87). -/
def RecordCollection.Super (rc : RecordCollection) : Except Panic RecordCollection :=
  match rc.callStack with
  | [] => Except.error (LogAndPanic "Empty call stack" [("model", rc.model.name)])
  | currentLayer :: _ =>
    let methInfo := currentLayer.methInfo
    match methInfo.getNextLayer currentLayer with
    | none =>
      Except.error (LogAndPanic "Called Super() on a base method"
        [("model", rc.model.name), ("method", methInfo.name)])
    | some methLayer => Except.ok { rc with callStack := methLayer :: rc.callStack }

/-- Embedding of `RecordCollection.MethodType` (lines 89-96). -/
def RecordCollection.MethodType (rc : RecordCollection) (methName : String) :
    Except Panic Nat :=
  match rc.model.methods.get methName with
  | none =>
    Except.error (LogAndPanic "Unknown method in model"
      [("model", rc.model.name), ("method", methName)])
  | some methInfo => Except.ok methInfo.methodType

/-! ## Concrete registry used for evaluation -/

/-- Chain "greet" with three layers: L3 (top, callable 13), L2 (12), L1 (base, 11). -/
def greet : methodInfo := { name := "greet", methodType := 1, layers := [13, 12, 11] }

/-- Chain "farewell" with two layers: top (callable 22) and base (21). -/
def farewell : methodInfo := { name := "farewell", methodType := 2, layers := [22, 21] }

/-- Model with the two chains registered. -/
def person : modelInfo :=
  { name := "Person", methods := { registry := [greet, farewell] } }

/-- Record collection of `person` with the given call stack. -/
def ctxOf (stack : List methodLayer) : RecordCollection :=
  { model := person, callStack := stack, handle := 0 }

/-- An invoker that records each invocation (callable and arguments) in the
world and returns no value. -/
def recorder : Invoker (List (Nat × List Value)) :=
  fun fn inVals w => (Except.ok [], w ++ [(fn, inVals)])

/-- An invoker that returns the arguments it received and counts the
invocations in the world. -/
def echo : Invoker Nat :=
  fun _ inVals w => (Except.ok inVals, w + 1)

/-- The result of `k` successive `Super` steps, each taken on the context
produced by the previous one. -/
def superSteps : Nat → RecordCollection → Except Panic RecordCollection
  | 0, rc => Except.ok rc
  | k + 1, rc =>
    match superSteps k rc with
    | Except.ok rc1 => rc1.Super
    | Except.error p => Except.error p

/-- The frames of one chain for the layers at positions `k, k-1, ..., 0`,
front first. -/
def chainFrames (methInfo : methodInfo) : Nat → List methodLayer
  | 0 => [{ methInfo := methInfo, index := 0 }]
  | k + 1 => { methInfo := methInfo, index := k + 1 } :: chainFrames methInfo k

/-- The record collections the engine can produce from one with an empty call
stack: the frame push of `CallMulti` (lines 40-44: the chain is registered and
has no frame in the stack, its top layer is prepended) and the successful
result of `Super` (lines 85-86). -/
inductive Reachable : RecordCollection → Prop where
  | empty (rc : RecordCollection) : rc.callStack = [] → Reachable rc
  | push (rc : RecordCollection) (m : String) (methInfo : methodInfo) :
      Reachable rc → rc.model.methods.get m = some methInfo →
      rc.getExistingLayer methInfo = none →
      Reachable { rc with callStack := methInfo.topLayer :: rc.callStack }
  | super (rc rc1 : RecordCollection) :
      Reachable rc → rc.Super = Except.ok rc1 → Reachable rc1

/-- The frames of a call stack that belong to the chain `methInfo`, in stack
order (front first). -/
def framesOf (stack : List methodLayer) (methInfo : methodInfo) : List methodLayer :=
  stack.filter (fun ml => decide (ml.methInfo = methInfo))

/-- The frames of the chain `methInfo` in the stack are absent, or they are
the layers at positions `k, k-1, ..., 0` (front first) for some position `k`
of the chain. -/
def ChainShape (stack : List methodLayer) (methInfo : methodInfo) : Prop :=
  framesOf stack methInfo = [] ∨
    ∃ k, k < methInfo.layers.length ∧ framesOf stack methInfo = chainFrames methInfo k

/-- Frames of one chain appear with strictly decreasing layer positions from
the front of the stack to its back. -/
def Ordered (stack : List methodLayer) : Prop :=
  stack.Pairwise (fun a b => a.methInfo = b.methInfo → b.index < a.index)

/-! ## Auxiliary facts -/

theorem getExistingLayer_first (rc : RecordCollection) (methInfo : methodInfo)
    (pre post : List methodLayer) (ml : methodLayer)
    (hstack : rc.callStack = pre ++ ml :: post)
    (hpre : ∀ x ∈ pre, x.methInfo ≠ methInfo)
    (hml : ml.methInfo = methInfo) :
    rc.getExistingLayer methInfo = some ml := by
  unfold RecordCollection.getExistingLayer
  rw [hstack]
  clear hstack
  induction pre with
  | nil => simp [List.find?_cons, hml]
  | cons x xs ih =>
    have hx : x.methInfo ≠ methInfo := hpre x (List.mem_cons_self x xs)
    have hxs : ∀ y ∈ xs, y.methInfo ≠ methInfo :=
      fun y hy => hpre y (List.mem_cons_of_mem x hy)
    simp only [List.cons_append, List.find?_cons, hx, decide_False]
    exact ih hxs

theorem getExistingLayer_none (rc : RecordCollection) (methInfo : methodInfo)
    (hno : ∀ x ∈ rc.callStack, x.methInfo ≠ methInfo) :
    rc.getExistingLayer methInfo = none := by
  unfold RecordCollection.getExistingLayer
  rw [List.find?_eq_none]
  intro x hx
  simpa using hno x hx

theorem getNextLayer_self (ml : methodLayer)
    (h : ml.index + 1 < ml.methInfo.layers.length) :
    ml.methInfo.getNextLayer ml = some { methInfo := ml.methInfo, index := ml.index + 1 } := by
  unfold methodInfo.getNextLayer
  simp [h]

theorem getNextLayer_base (ml : methodLayer)
    (h : ¬ ml.index + 1 < ml.methInfo.layers.length) :
    ml.methInfo.getNextLayer ml = none := by
  unfold methodInfo.getNextLayer
  simp [h]

/-- `Super` on a stack whose front frame has a next layer. -/
theorem Super_cons_ok (rc : RecordCollection) (ml : methodLayer) (rest : List methodLayer)
    (hstack : rc.callStack = ml :: rest)
    (h : ml.index + 1 < ml.methInfo.layers.length) :
    rc.Super = Except.ok
      { rc with callStack := { methInfo := ml.methInfo, index := ml.index + 1 } :: rc.callStack } := by
  unfold RecordCollection.Super
  rw [hstack]
  simp only [getNextLayer_self ml h]

/-- Every successful `Super` has the shape given by `Super_cons_ok`. -/
theorem Super_ok_inv (rc rc1 : RecordCollection) (h : rc.Super = Except.ok rc1) :
    ∃ ml rest, rc.callStack = ml :: rest ∧ ml.index + 1 < ml.methInfo.layers.length ∧
      rc1 = { rc with callStack :=
        { methInfo := ml.methInfo, index := ml.index + 1 } :: rc.callStack } := by
  unfold RecordCollection.Super at h
  cases hs : rc.callStack with
  | nil => rw [hs] at h; simp at h
  | cons ml rest =>
    rw [hs] at h
    by_cases hlt : ml.index + 1 < ml.methInfo.layers.length
    · simp only [getNextLayer_self ml hlt] at h
      refine ⟨ml, rest, rfl, hlt, ?_⟩
      injection h with h
      rw [← h]
    · simp only [getNextLayer_base ml hlt] at h
      cases h

theorem CallMulti_existing {σ : Type} (invoke : Invoker σ) (rc : RecordCollection)
    (m : String) (methInfo : methodInfo) (ml : methodLayer) (args : List Value) (w : σ)
    (hreg : rc.model.methods.get m = some methInfo)
    (hex : rc.getExistingLayer methInfo = some ml) :
    rc.CallMulti invoke m args w = rc.callMulti invoke ml args w := by
  unfold RecordCollection.CallMulti
  simp only [hreg, hex]

theorem CallMulti_fresh {σ : Type} (invoke : Invoker σ) (rc : RecordCollection)
    (m : String) (methInfo : methodInfo) (args : List Value) (w : σ)
    (hreg : rc.model.methods.get m = some methInfo)
    (hex : rc.getExistingLayer methInfo = none) :
    rc.CallMulti invoke m args w =
      RecordCollection.callMulti invoke
        { rc with callStack := methInfo.topLayer :: rc.callStack } methInfo.topLayer args w := by
  unfold RecordCollection.CallMulti
  simp only [hreg, hex]

theorem superSteps_chain (rc : RecordCollection) (methInfo : methodInfo) (k : Nat)
    (hk : k < methInfo.layers.length) :
    superSteps k { rc with callStack := [methInfo.topLayer] } =
      Except.ok { rc with callStack := chainFrames methInfo k } := by
  induction k with
  | zero => rfl
  | succ j ih =>
    have hj : j < methInfo.layers.length := Nat.lt_of_succ_lt hk
    have hfront : ∃ rest, chainFrames methInfo j =
        ({ methInfo := methInfo, index := j } : methodLayer) :: rest := by
      cases j with
      | zero => exact ⟨[], rfl⟩
      | succ i => exact ⟨chainFrames methInfo i, rfl⟩
    obtain ⟨rest, hrest⟩ := hfront
    simp only [superSteps, ih hj]
    rw [Super_cons_ok _ { methInfo := methInfo, index := j } rest hrest hk]
    rfl

theorem chainFrames_front (methInfo : methodInfo) (k : Nat) :
    ∃ rest, chainFrames methInfo k =
      ({ methInfo := methInfo, index := k } : methodLayer) :: rest := by
  cases k with
  | zero => exact ⟨[], rfl⟩
  | succ i => exact ⟨chainFrames methInfo i, rfl⟩

/-! ## Claims -/

/-- C1. Super followed by a call of the same operation runs the parent layer:
when the front frame `ml` of the call stack is not the last layer of its chain
and `m` is the name under which that chain is registered, `Super` succeeds,
`getNextLayer` gives the layer after `ml`, and `CallMulti m` on the context
returned by `Super` invokes exactly that layer, handing it the context returned
by `Super` itself (no further frame is pushed), for every implementation. -/
theorem C1_super_then_call_runs_next_layer (rc : RecordCollection) (ml : methodLayer)
    (rest : List methodLayer) (m : String)
    (hstack : rc.callStack = ml :: rest)
    (hnotlast : ml.index + 1 < ml.methInfo.layers.length)
    (hreg : rc.model.methods.get m = some ml.methInfo) :
    ∃ rc1 next, rc.Super = Except.ok rc1 ∧
      ml.methInfo.getNextLayer ml = some next ∧
      next.methInfo = ml.methInfo ∧ next.index = ml.index + 1 ∧
      rc1.callStack = next :: ml :: rest ∧
      ∀ (σ : Type) (invoke : Invoker σ) (args : List Value) (w : σ),
        rc1.CallMulti invoke m args w = rc1.callMulti invoke next args w := by
  refine ⟨{ rc with callStack := { methInfo := ml.methInfo, index := ml.index + 1 } :: rc.callStack },
    { methInfo := ml.methInfo, index := ml.index + 1 },
    Super_cons_ok rc ml rest hstack hnotlast, getNextLayer_self ml hnotlast, rfl, rfl, ?_, ?_⟩
  · simp only [hstack]
  · intro σ invoke args w
    exact CallMulti_existing invoke
      { rc with callStack := { methInfo := ml.methInfo, index := ml.index + 1 } :: rc.callStack }
      m ml.methInfo _ args w hreg
      (getExistingLayer_first _ ml.methInfo [] rc.callStack _ rfl
        (fun x hx => absurd hx (List.not_mem_nil x)) rfl)

/-- Witness of C1 on the chain "greet": the front frame is its top layer L3. -/
theorem C1_super_then_call_runs_next_layer_witness :
    ∃ rc1 next, (ctxOf [greet.topLayer]).Super = Except.ok rc1 ∧
      greet.topLayer.methInfo.getNextLayer greet.topLayer = some next ∧
      next.methInfo = greet.topLayer.methInfo ∧ next.index = greet.topLayer.index + 1 ∧
      rc1.callStack = next :: greet.topLayer :: [] ∧
      ∀ (σ : Type) (invoke : Invoker σ) (args : List Value) (w : σ),
        rc1.CallMulti invoke "greet" args w = rc1.callMulti invoke next args w :=
  C1_super_then_call_runs_next_layer (ctxOf [greet.topLayer]) greet.topLayer [] "greet"
    rfl (by decide) rfl

/-- C2. Priority order over a whole chain `methInfo` of `n >= 1` layers
registered under `m`. From an empty call stack `CallMulti m` invokes the top
layer with the context holding just that frame; for every `k < n`, `k`
successive `Super` steps from that context succeed, the resulting context has
the layer at position `k` in front, and `CallMulti m` on it invokes the layer
at position `k`, whose callable is the `k`-th entry of the chain; and `Super`
on any context whose front frame is the base layer (position `n - 1`) fails
with the panic "Called Super() on a base method". -/
theorem C2_priority_order_over_chain (rc : RecordCollection) (m : String)
    (methInfo : methodInfo)
    (hn : 1 ≤ methInfo.layers.length)
    (hreg : rc.model.methods.get m = some methInfo)
    (hempty : rc.callStack = []) :
    (∀ (σ : Type) (invoke : Invoker σ) (args : List Value) (w : σ),
      rc.CallMulti invoke m args w =
        RecordCollection.callMulti invoke { rc with callStack := [methInfo.topLayer] }
          methInfo.topLayer args w) ∧
    (∀ k, k < methInfo.layers.length →
      ∃ rck, superSteps k { rc with callStack := [methInfo.topLayer] } = Except.ok rck ∧
        rck.callStack.head? = some { methInfo := methInfo, index := k } ∧
        methodLayer.funcValue { methInfo := methInfo, index := k } = methInfo.layers.get? k ∧
        ∀ (σ : Type) (invoke : Invoker σ) (args : List Value) (w : σ),
          rck.CallMulti invoke m args w =
            rck.callMulti invoke { methInfo := methInfo, index := k } args w) ∧
    (∀ (rcb : RecordCollection) (rest : List methodLayer),
      rcb.callStack = { methInfo := methInfo, index := methInfo.layers.length - 1 } :: rest →
      rcb.Super = Except.error (LogAndPanic "Called Super() on a base method"
        [("model", rcb.model.name), ("method", methInfo.name)])) := by
  refine ⟨?_, ?_, ?_⟩
  · intro σ invoke args w
    have hex : rc.getExistingLayer methInfo = none :=
      getExistingLayer_none rc methInfo (by rw [hempty]; intro x hx; cases hx)
    rw [CallMulti_fresh invoke rc m methInfo args w hreg hex, hempty]
  · intro k hk
    refine ⟨{ rc with callStack := chainFrames methInfo k },
      superSteps_chain rc methInfo k hk, ?_, rfl, ?_⟩
    · obtain ⟨rest, hrest⟩ := chainFrames_front methInfo k
      simp only [hrest, List.head?_cons]
    · intro σ invoke args w
      obtain ⟨rest, hrest⟩ := chainFrames_front methInfo k
      exact CallMulti_existing invoke { rc with callStack := chainFrames methInfo k }
        m methInfo _ args w hreg
        (getExistingLayer_first _ methInfo [] rest _ hrest
          (fun x hx => absurd hx (List.not_mem_nil x)) rfl)
  · intro rcb rest hstack
    unfold RecordCollection.Super
    rw [hstack]
    have hbase : methodInfo.getNextLayer methInfo
        { methInfo := methInfo, index := methInfo.layers.length - 1 } = none := by
      apply getNextLayer_base
      simp only [not_lt]
      omega
    simp only [hbase]

/-- Witness of C2 on the three-layer chain "greet", from the empty call stack. -/
theorem C2_priority_order_over_chain_witness :
    (∀ (σ : Type) (invoke : Invoker σ) (args : List Value) (w : σ),
      (ctxOf []).CallMulti invoke "greet" args w =
        RecordCollection.callMulti invoke { ctxOf [] with callStack := [greet.topLayer] }
          greet.topLayer args w) ∧
    (∀ k, k < greet.layers.length →
      ∃ rck, superSteps k { ctxOf [] with callStack := [greet.topLayer] } = Except.ok rck ∧
        rck.callStack.head? = some { methInfo := greet, index := k } ∧
        methodLayer.funcValue { methInfo := greet, index := k } = greet.layers.get? k ∧
        ∀ (σ : Type) (invoke : Invoker σ) (args : List Value) (w : σ),
          rck.CallMulti invoke "greet" args w =
            rck.callMulti invoke { methInfo := greet, index := k } args w) ∧
    (∀ (rcb : RecordCollection) (rest : List methodLayer),
      rcb.callStack = { methInfo := greet, index := greet.layers.length - 1 } :: rest →
      rcb.Super = Except.error (LogAndPanic "Called Super() on a base method"
        [("model", rcb.model.name), ("method", greet.name)])) :=
  C2_priority_order_over_chain (ctxOf []) "greet" greet (by decide) rfl rfl

/-- C3. Re-entrant calls resume, they do not restart: when the call stack
contains a frame of the chain registered under `m`, and `ml` is the front-most
such frame (the frames `pre` in front of it belong to other chains),
`CallMulti m` invokes `ml` and hands it the input context unchanged, so the
call stack it sees is the input call stack and no frame is pushed. -/
theorem C3_reentrant_call_resumes (rc : RecordCollection) (m : String)
    (methInfo : methodInfo) (pre post : List methodLayer) (ml : methodLayer)
    (hreg : rc.model.methods.get m = some methInfo)
    (hstack : rc.callStack = pre ++ ml :: post)
    (hpre : ∀ x ∈ pre, x.methInfo ≠ methInfo)
    (hml : ml.methInfo = methInfo) :
    ∀ (σ : Type) (invoke : Invoker σ) (args : List Value) (w : σ),
      rc.CallMulti invoke m args w = rc.callMulti invoke ml args w := by
  intro σ invoke args w
  exact CallMulti_existing invoke rc m methInfo ml args w hreg
    (getExistingLayer_first rc methInfo pre post ml hstack hpre hml)

/-- Witness of C3: with the stack [farewell.top, greet.L3] a call of "greet"
invokes L3, behind the frame of "farewell". -/
theorem C3_reentrant_call_resumes_witness :
    (ctxOf [farewell.topLayer, greet.topLayer]).CallMulti recorder "greet" [Value.int 3] [] =
      (ctxOf [farewell.topLayer, greet.topLayer]).callMulti recorder greet.topLayer
        [Value.int 3] [] :=
  C3_reentrant_call_resumes (ctxOf [farewell.topLayer, greet.topLayer]) "greet" greet
    [farewell.topLayer] [] greet.topLayer rfl rfl (by decide) rfl
    (List (Nat × List Value)) recorder [Value.int 3] []

/-- C4. A call of an operation that is not in progress starts a fresh chain at
the top: when no frame of the call stack belongs to the chain registered under
`m`, `CallMulti m` invokes the top layer of the chain and hands it a context
whose call stack is the top layer prepended to the input call stack, every
other field being unchanged. In particular two record collections with empty
call stacks both start at the top layer. -/
theorem C4_fresh_call_starts_at_top (rc : RecordCollection) (m : String)
    (methInfo : methodInfo)
    (hreg : rc.model.methods.get m = some methInfo)
    (hno : ∀ x ∈ rc.callStack, x.methInfo ≠ methInfo) :
    (∀ (σ : Type) (invoke : Invoker σ) (args : List Value) (w : σ),
      rc.CallMulti invoke m args w =
        RecordCollection.callMulti invoke
          { rc with callStack := methInfo.topLayer :: rc.callStack } methInfo.topLayer args w) ∧
    (∀ (rc2 : RecordCollection), rc2.model = rc.model → rc2.callStack = [] →
      ∀ (σ : Type) (invoke : Invoker σ) (args : List Value) (w : σ),
        rc2.CallMulti invoke m args w =
          RecordCollection.callMulti invoke
            { rc2 with callStack := [methInfo.topLayer] } methInfo.topLayer args w) := by
  refine ⟨?_, ?_⟩
  · intro σ invoke args w
    exact CallMulti_fresh invoke rc m methInfo args w hreg
      (getExistingLayer_none rc methInfo hno)
  · intro rc2 hmodel hempty σ invoke args w
    have hreg2 : rc2.model.methods.get m = some methInfo := by rw [hmodel]; exact hreg
    have hex : rc2.getExistingLayer methInfo = none :=
      getExistingLayer_none rc2 methInfo (by rw [hempty]; intro x hx; cases hx)
    rw [CallMulti_fresh invoke rc2 m methInfo args w hreg2 hex, hempty]

/-- Witness of C4: "farewell" called while only "greet" is in progress. -/
theorem C4_fresh_call_starts_at_top_witness :
    (∀ (σ : Type) (invoke : Invoker σ) (args : List Value) (w : σ),
      (ctxOf [greet.topLayer]).CallMulti invoke "farewell" args w =
        RecordCollection.callMulti invoke
          { ctxOf [greet.topLayer] with
            callStack := farewell.topLayer :: (ctxOf [greet.topLayer]).callStack }
          farewell.topLayer args w) ∧
    (∀ (rc2 : RecordCollection), rc2.model = (ctxOf [greet.topLayer]).model →
      rc2.callStack = [] →
      ∀ (σ : Type) (invoke : Invoker σ) (args : List Value) (w : σ),
        rc2.CallMulti invoke "farewell" args w =
          RecordCollection.callMulti invoke
            { rc2 with callStack := [farewell.topLayer] } farewell.topLayer args w) :=
  C4_fresh_call_starts_at_top (ctxOf [greet.topLayer]) "farewell" farewell rfl (by decide)

theorem getExistingLayer_none_inv (rc : RecordCollection) (methInfo : methodInfo)
    (h : rc.getExistingLayer methInfo = none) :
    ∀ x ∈ rc.callStack, x.methInfo ≠ methInfo := by
  unfold RecordCollection.getExistingLayer at h
  rw [List.find?_eq_none] at h
  intro x hx
  simpa using h x hx

theorem reachable_ordered (rc : RecordCollection) (h : Reachable rc) :
    Ordered rc.callStack := by
  induction h with
  | empty rc hempty =>
    unfold Ordered
    rw [hempty]
    exact List.Pairwise.nil
  | push rc m methInfo _ _ hex ih =>
    unfold Ordered at ih ⊢
    refine List.Pairwise.cons ?_ ih
    intro b hb heq
    exact absurd heq.symm (getExistingLayer_none_inv rc methInfo hex b hb)
  | super rc rc1 _ hs ih =>
    obtain ⟨ml, rest, hstack, _, hrc1⟩ := Super_ok_inv rc rc1 hs
    unfold Ordered at ih ⊢
    rw [hrc1]
    refine List.Pairwise.cons ?_ ih
    intro b hb heq
    rw [hstack] at hb ih
    rcases List.mem_cons.mp hb with hbe | hbr
    · rw [hbe]
      exact Nat.lt_succ_self ml.index
    · have hlt : b.index < ml.index := (List.pairwise_cons.mp ih).1 b hbr heq
      exact Nat.lt_succ_of_lt hlt

theorem ordered_nodup (stack : List methodLayer) (h : Ordered stack) : stack.Nodup := by
  unfold Ordered at h
  refine List.Pairwise.imp ?_ h
  intro a b hab heq
  have hlt : b.index < a.index := hab (by rw [heq])
  rw [heq] at hlt
  exact Nat.lt_irrefl _ hlt

/-- The stack [greet.L2, greet.L3] is reached from the empty stack by the frame
push of `CallMulti "greet"` followed by one `Super`. -/
theorem reachable_greet_two : Reachable (ctxOf [⟨greet, 1⟩, greet.topLayer]) := by
  have h0 : Reachable (ctxOf []) := Reachable.empty (ctxOf []) rfl
  have h1 : Reachable (ctxOf [greet.topLayer]) :=
    Reachable.push (ctxOf []) "greet" greet h0 rfl rfl
  exact Reachable.super (ctxOf [greet.topLayer]) (ctxOf [⟨greet, 1⟩, greet.topLayer]) h1 rfl

/-- C5, evaluation at the failing input. In the stack [farewell.top, greet.L3]
(L3 of "greet" called "farewell", whose layer calls "greet" again) `CallMulti`
invokes L3 (callable 13) and hands it the input context, whose front frame is
the frame of "farewell", not the frame of the invoked layer. `Super` on that
context therefore advances "farewell", and calling "greet" on the result
invokes L3 once more instead of its next layer L2. -/
theorem C5_reentrant_front_frame_is_other_chain :
    (ctxOf [farewell.topLayer, greet.topLayer]).CallMulti recorder "greet" [] [] =
      (Except.ok [], [(13, [Value.rc (ctxOf [farewell.topLayer, greet.topLayer])])]) ∧
    (ctxOf [farewell.topLayer, greet.topLayer]).callStack.head? = some farewell.topLayer ∧
    farewell.topLayer ≠ greet.topLayer ∧
    farewell.topLayer.methInfo ≠ greet ∧
    (ctxOf [farewell.topLayer, greet.topLayer]).Super =
      Except.ok (ctxOf [⟨farewell, 1⟩, farewell.topLayer, greet.topLayer]) ∧
    (ctxOf [⟨farewell, 1⟩, farewell.topLayer, greet.topLayer]).CallMulti recorder "greet" [] [] =
      (Except.ok [],
        [(13, [Value.rc (ctxOf [⟨farewell, 1⟩, farewell.topLayer, greet.topLayer])])]) :=
  ⟨rfl, rfl, by decide, by decide, rfl, rfl⟩

/-- C6 as stated fails: the stack [greet.L2, greet.L3], produced from the empty
stack by the frame push of `CallMulti "greet"` followed by one `Super`, is
reachable and holds two frames of the chain "greet". -/
theorem C6_two_frames_of_one_chain :
    Reachable (ctxOf [⟨greet, 1⟩, greet.topLayer]) ∧
    ((ctxOf [⟨greet, 1⟩, greet.topLayer]).callStack.filter
      (fun ml => decide (ml.methInfo = greet))).length = 2 := by
  exact ⟨reachable_greet_two, by decide⟩

/-- C6, amended. At most one frame per layer of a chain: no call stack
reachable from the empty one by the frame push of `CallMulti` and successful
`Super` steps holds the same layer twice, and among the frames of one chain the
layer positions strictly increase toward the front of the stack. -/
theorem C6_at_most_one_frame_per_layer (rc : RecordCollection) (h : Reachable rc) :
    rc.callStack.Nodup ∧
    rc.callStack.Pairwise (fun a b => a.methInfo = b.methInfo → b.index < a.index) :=
  ⟨ordered_nodup rc.callStack (reachable_ordered rc h), reachable_ordered rc h⟩

/-- Witness of the amended C6 on the reachable stack [greet.L2, greet.L3]. -/
theorem C6_at_most_one_frame_per_layer_witness :
    (ctxOf [⟨greet, 1⟩, greet.topLayer]).callStack.Nodup ∧
    (ctxOf [⟨greet, 1⟩, greet.topLayer]).callStack.Pairwise
      (fun a b => a.methInfo = b.methInfo → b.index < a.index) :=
  C6_at_most_one_frame_per_layer (ctxOf [⟨greet, 1⟩, greet.topLayer]) reachable_greet_two

/-- C7 as stated fails: `Super` on the stack [greet.L3] returns the stack
[greet.L2, greet.L3]; the frames behind its front frame are [greet.L3], while
no frame lies behind the front frame of the input, and the length has grown
from 1 to 2. -/
theorem C7_super_keeps_old_front_frame :
    (ctxOf [greet.topLayer]).Super = Except.ok (ctxOf [⟨greet, 1⟩, greet.topLayer]) ∧
    (ctxOf [⟨greet, 1⟩, greet.topLayer]).callStack.tail ≠ (ctxOf [greet.topLayer]).callStack.tail ∧
    (ctxOf [⟨greet, 1⟩, greet.topLayer]).callStack.length ≠
      (ctxOf [greet.topLayer]).callStack.length :=
  ⟨rfl, by decide, by decide⟩

/-- C7, amended. `Super` prepends and replaces nothing: whenever `Super`
succeeds, the frames behind the front frame of the returned context are exactly
all the frames of the input context, in the same order, the old front frame
included; the new front frame is the next layer of the old front frame, and
the stack is longer by one. -/
theorem C7_super_prepends_next_layer (rc rc1 : RecordCollection)
    (h : rc.Super = Except.ok rc1) :
    rc1.callStack.tail = rc.callStack ∧
    rc1.callStack.length = rc.callStack.length + 1 ∧
    ∃ ml rest, rc.callStack = ml :: rest ∧
      (rc1.callStack.head?).isSome = true ∧
      rc1.callStack.head? = ml.methInfo.getNextLayer ml := by
  obtain ⟨ml, rest, hstack, hlt, hrc1⟩ := Super_ok_inv rc rc1 h
  rw [hrc1]
  refine ⟨rfl, rfl, ml, rest, hstack, rfl, ?_⟩
  rw [getNextLayer_self ml hlt]
  rfl

/-- Witness of the amended C7 on the stack [greet.L3]. -/
theorem C7_super_prepends_next_layer_witness :
    (ctxOf [⟨greet, 1⟩, greet.topLayer]).callStack.tail = (ctxOf [greet.topLayer]).callStack ∧
    (ctxOf [⟨greet, 1⟩, greet.topLayer]).callStack.length =
      (ctxOf [greet.topLayer]).callStack.length + 1 ∧
    ∃ ml rest, (ctxOf [greet.topLayer]).callStack = ml :: rest ∧
      ((ctxOf [⟨greet, 1⟩, greet.topLayer]).callStack.head?).isSome = true ∧
      (ctxOf [⟨greet, 1⟩, greet.topLayer]).callStack.head? = ml.methInfo.getNextLayer ml :=
  C7_super_prepends_next_layer (ctxOf [greet.topLayer]) (ctxOf [⟨greet, 1⟩, greet.topLayer]) rfl

/-- C8, evaluation at the failing input. In the stack
[farewell.top, greet.L2, greet.L3] the current method "farewell" has been
called from layer L2 of "greet", and its front layer has a next layer. `Super`
succeeds and pushes the base layer of "farewell"; calling "greet" on the
returned context invokes L2 again (callable 12), not the layer that follows L2
in the chain, which is L1 (callable 11). -/
theorem C8_super_then_other_method_reruns_its_layer :
    (ctxOf [farewell.topLayer, ⟨greet, 1⟩, greet.topLayer]).Super =
      Except.ok (ctxOf [⟨farewell, 1⟩, farewell.topLayer, ⟨greet, 1⟩, greet.topLayer]) ∧
    (ctxOf [⟨farewell, 1⟩, farewell.topLayer, ⟨greet, 1⟩, greet.topLayer]).CallMulti
        recorder "greet" [] [] =
      (Except.ok [], [(12, [Value.rc
        (ctxOf [⟨farewell, 1⟩, farewell.topLayer, ⟨greet, 1⟩, greet.topLayer])])]) ∧
    greet.getNextLayer ⟨greet, 1⟩ = some ⟨greet, 2⟩ ∧
    methodLayer.funcValue ⟨greet, 1⟩ = some 12 ∧
    methodLayer.funcValue ⟨greet, 2⟩ = some 11 :=
  ⟨rfl, rfl, rfl, rfl, rfl⟩

/-- C9. The "otherwise" case of the documentation of `Super`: when `Super`
succeeds on `rc` and the registered method `m` has no frame in the call stack
of `rc`, calling `m` on the context returned by `Super` and calling `m` on `rc`
both invoke the top layer of the chain of `m` with the given arguments, each
after pushing that top layer on its own call stack. -/
theorem C9_super_then_unrelated_method (rc rc1 : RecordCollection) (m : String)
    (methInfo : methodInfo)
    (hs : rc.Super = Except.ok rc1)
    (hreg : rc.model.methods.get m = some methInfo)
    (hno : ∀ x ∈ rc.callStack, x.methInfo ≠ methInfo) :
    ∀ (σ : Type) (invoke : Invoker σ) (args : List Value) (w : σ),
      rc1.CallMulti invoke m args w =
        RecordCollection.callMulti invoke
          { rc1 with callStack := methInfo.topLayer :: rc1.callStack }
          methInfo.topLayer args w ∧
      rc.CallMulti invoke m args w =
        RecordCollection.callMulti invoke
          { rc with callStack := methInfo.topLayer :: rc.callStack }
          methInfo.topLayer args w := by
  intro σ invoke args w
  obtain ⟨ml, rest, hstack, _, hrc1⟩ := Super_ok_inv rc rc1 hs
  have hml : ml.methInfo ≠ methInfo := hno ml (by rw [hstack]; exact List.mem_cons_self ml rest)
  have hno1 : ∀ x ∈ rc1.callStack, x.methInfo ≠ methInfo := by
    intro x hx
    rw [hrc1] at hx
    rcases List.mem_cons.mp hx with hxe | hxr
    · rw [hxe]; exact hml
    · exact hno x hxr
  have hreg1 : rc1.model.methods.get m = some methInfo := by rw [hrc1]; exact hreg
  exact ⟨CallMulti_fresh invoke rc1 m methInfo args w hreg1
      (getExistingLayer_none rc1 methInfo hno1),
    CallMulti_fresh invoke rc m methInfo args w hreg
      (getExistingLayer_none rc methInfo hno)⟩

/-- Witness of C9: `Super` inside L3 of "greet", then a call of "farewell". -/
theorem C9_super_then_unrelated_method_witness :
    (ctxOf [⟨greet, 1⟩, greet.topLayer]).CallMulti recorder "farewell" [Value.int 3] [] =
      RecordCollection.callMulti recorder
        { ctxOf [⟨greet, 1⟩, greet.topLayer] with
          callStack := farewell.topLayer :: (ctxOf [⟨greet, 1⟩, greet.topLayer]).callStack }
        farewell.topLayer [Value.int 3] [] ∧
    (ctxOf [greet.topLayer]).CallMulti recorder "farewell" [Value.int 3] [] =
      RecordCollection.callMulti recorder
        { ctxOf [greet.topLayer] with
          callStack := farewell.topLayer :: (ctxOf [greet.topLayer]).callStack }
        farewell.topLayer [Value.int 3] [] :=
  C9_super_then_unrelated_method (ctxOf [greet.topLayer]) (ctxOf [⟨greet, 1⟩, greet.topLayer])
    "farewell" farewell rfl rfl (by decide) (List (Nat × List Value)) recorder [Value.int 3] []

theorem callMulti_not_unknown (rc : RecordCollection) (ml : methodLayer)
    (args : List Value) (p : Panic) (hp : p.msg = "Unknown method in model") :
    RecordCollection.callMulti (fun _ _ (u : Unit) => (Except.ok [], u)) rc ml args () ≠
      (Except.error p, ()) := by
  unfold RecordCollection.callMulti
  cases hf : ml.funcValue with
  | none =>
    intro h
    have hp2 : nilDereference = p := by
      simp only [Prod.mk.injEq, and_true] at h
      injection h
    rw [← hp2] at hp
    revert hp
    decide
  | some fn =>
    intro h
    simp at h

/-- C10. Unknown Operation: `MethodType m` and `CallMulti m args` fail with the
panic "Unknown method in model" exactly when the method registry of the model
has no chain for `m`, whatever the call stack, the arguments and the layer
implementations. In that case `CallMulti` leaves the world untouched, so it
invokes no layer; when the registry has a chain for `m`, `MethodType` returns
its type and the outcome of `CallMulti` is the outcome of invoking a layer. -/
theorem C10_unknown_method (rc : RecordCollection) (m : String) :
    (rc.model.methods.get m = none ↔
      rc.MethodType m = Except.error (LogAndPanic "Unknown method in model"
        [("model", rc.model.name), ("method", m)])) ∧
    (rc.model.methods.get m = none ↔
      ∀ (σ : Type) (invoke : Invoker σ) (args : List Value) (w : σ),
        rc.CallMulti invoke m args w =
          (Except.error (LogAndPanic "Unknown method in model"
            [("method", m), ("model", rc.model.name)]), w)) ∧
    (∀ methInfo, rc.model.methods.get m = some methInfo →
      rc.MethodType m = Except.ok methInfo.methodType ∧
      ∃ (rc1 : RecordCollection) (ml : methodLayer),
        ∀ (σ : Type) (invoke : Invoker σ) (args : List Value) (w : σ),
        rc.CallMulti invoke m args w = rc1.callMulti invoke ml args w) := by
  have hsome : ∀ methInfo, rc.model.methods.get m = some methInfo →
      ∃ (rc1 : RecordCollection) (ml : methodLayer),
        ∀ (σ : Type) (invoke : Invoker σ) (args : List Value) (w : σ),
        rc.CallMulti invoke m args w = rc1.callMulti invoke ml args w := by
    intro methInfo hreg
    cases hex : rc.getExistingLayer methInfo with
    | some ml =>
      exact ⟨rc, ml, fun σ invoke args w => CallMulti_existing invoke rc m methInfo ml args w hreg hex⟩
    | none =>
      exact ⟨{ rc with callStack := methInfo.topLayer :: rc.callStack }, methInfo.topLayer,
        fun σ invoke args w => CallMulti_fresh invoke rc m methInfo args w hreg hex⟩
  refine ⟨?_, ?_, ?_⟩
  · constructor
    · intro hnone
      unfold RecordCollection.MethodType
      simp only [hnone]
    · intro herr
      cases hreg : rc.model.methods.get m with
      | none => rfl
      | some methInfo =>
        unfold RecordCollection.MethodType at herr
        simp only [hreg] at herr
        cases herr
  · constructor
    · intro hnone σ invoke args w
      unfold RecordCollection.CallMulti
      simp only [hnone]
    · intro herr
      cases hreg : rc.model.methods.get m with
      | none => rfl
      | some methInfo =>
        obtain ⟨rc1, ml, hcall⟩ := hsome methInfo hreg
        have h1 := herr Unit (fun _ _ (u : Unit) => (Except.ok [], u)) [] ()
        rw [hcall] at h1
        exact absurd h1 (callMulti_not_unknown rc1 ml [] _ rfl)
  · intro methInfo hreg
    refine ⟨?_, hsome methInfo hreg⟩
    unfold RecordCollection.MethodType
    simp only [hreg]

/-! ## Argument assembly and result copy of `callMulti` -/

theorem fillInVals_append (args : List Value) (i : Nat) (pre : List Value)
    (hpre : pre.length = i + 1) :
    fillInVals args i (pre ++ List.replicate args.length Value.null) = pre ++ args := by
  induction args generalizing i pre with
  | nil => simp [fillInVals]
  | cons a rest ih =>
    have hset : (pre ++ List.replicate (a :: rest).length Value.null).set (i + 1) a =
        (pre ++ [a]) ++ List.replicate rest.length Value.null := by
      rw [List.length_cons, List.replicate_succ, ← hpre,
        List.set_append_right _ _ (Nat.le_refl _)]
      simp
    simp only [fillInVals, hset]
    rw [ih (i + 1) (pre ++ [a]) (by simp [hpre])]
    simp

theorem inVals_assembled (rc : RecordCollection) (args : List Value) :
    fillInVals args 0 ((List.replicate (args.length + 1) Value.null).set 0 (Value.rc rc)) =
      Value.rc rc :: args := by
  have h := fillInVals_append args 0 [Value.rc rc] rfl
  simpa [List.replicate_succ] using h

theorem copy_slice (retVal : List Value) :
    (List.range retVal.length).map (fun i => retVal.getD i Value.null) = retVal := by
  apply List.ext_getElem
  · simp
  · intro n h1 h2
    simp [List.getD_eq_getElem?_getD, List.getElem?_eq_getElem h2]

theorem callMulti_eq_invoke {σ : Type} (invoke : Invoker σ) (rc : RecordCollection)
    (ml : methodLayer) (fn : Nat) (args : List Value) (w : σ)
    (hf : ml.funcValue = some fn) :
    rc.callMulti invoke ml args w = invoke fn (Value.rc rc :: args) w := by
  unfold RecordCollection.callMulti
  simp only [hf, inVals_assembled]
  rcases hinv : invoke fn (Value.rc rc :: args) w with ⟨r, w1⟩
  cases r with
  | error p => rfl
  | ok retVal => simp only [copy_slice]

/-- C11. No Parent Layer: on a context whose call stack is non-empty with front
frame `ml`, `Super` fails with the panic "Called Super() on a base method"
exactly when the chain of `ml` has no layer after `ml`, and succeeds otherwise,
returning the input with the next layer prepended. The outcome depends only on
the front frame: two contexts of one model with the same front frame both fail
with the same panic or both succeed, whatever lies behind the front frame. -/
theorem C11_no_parent_layer (rc : RecordCollection) (ml : methodLayer)
    (rest : List methodLayer)
    (hstack : rc.callStack = ml :: rest) :
    (rc.Super = Except.error (LogAndPanic "Called Super() on a base method"
        [("model", rc.model.name), ("method", ml.methInfo.name)]) ↔
      ¬ ml.index + 1 < ml.methInfo.layers.length) ∧
    (¬ ml.index + 1 < ml.methInfo.layers.length ↔ ml.methInfo.getNextLayer ml = none) ∧
    (ml.index + 1 < ml.methInfo.layers.length →
      rc.Super = Except.ok { rc with callStack :=
        { methInfo := ml.methInfo, index := ml.index + 1 } :: rc.callStack }) ∧
    (∀ (rc2 : RecordCollection) (rest2 : List methodLayer),
      rc2.callStack = ml :: rest2 → rc2.model = rc.model →
      ((∃ p, rc.Super = Except.error p ∧ rc2.Super = Except.error p) ∨
       (∃ r r2, rc.Super = Except.ok r ∧ rc2.Super = Except.ok r2 ∧
          r.callStack.head? = r2.callStack.head?))) := by
  have hbase : ∀ (c : RecordCollection) (tl : List methodLayer), c.callStack = ml :: tl →
      ¬ ml.index + 1 < ml.methInfo.layers.length →
      c.Super = Except.error (LogAndPanic "Called Super() on a base method"
        [("model", c.model.name), ("method", ml.methInfo.name)]) := by
    intro c tl hc hlast
    unfold RecordCollection.Super
    rw [hc]
    simp only [getNextLayer_base ml hlast]
  refine ⟨?_, ?_, ?_, ?_⟩
  · constructor
    · intro herr hlt
      rw [Super_cons_ok rc ml rest hstack hlt] at herr
      cases herr
    · exact hbase rc rest hstack
  · constructor
    · exact getNextLayer_base ml
    · intro hnone hlt
      rw [getNextLayer_self ml hlt] at hnone
      cases hnone
  · exact Super_cons_ok rc ml rest hstack
  · intro rc2 rest2 hstack2 hmodel
    by_cases hlt : ml.index + 1 < ml.methInfo.layers.length
    · right
      exact ⟨_, _, Super_cons_ok rc ml rest hstack hlt,
        Super_cons_ok rc2 ml rest2 hstack2 hlt, rfl⟩
    · left
      refine ⟨_, hbase rc rest hstack hlt, ?_⟩
      rw [hbase rc2 rest2 hstack2 hlt, hmodel]

/-- Witness of C11: the base layer L1 of "greet" in front of L2 and L3. -/
theorem C11_no_parent_layer_witness :
    ((ctxOf [⟨greet, 2⟩, ⟨greet, 1⟩, greet.topLayer]).Super =
        Except.error (LogAndPanic "Called Super() on a base method"
          [("model", (ctxOf [⟨greet, 2⟩, ⟨greet, 1⟩, greet.topLayer]).model.name),
           ("method", (⟨greet, 2⟩ : methodLayer).methInfo.name)]) ↔
      ¬ (⟨greet, 2⟩ : methodLayer).index + 1 < (⟨greet, 2⟩ : methodLayer).methInfo.layers.length) ∧
    (¬ (⟨greet, 2⟩ : methodLayer).index + 1 < (⟨greet, 2⟩ : methodLayer).methInfo.layers.length ↔
      (⟨greet, 2⟩ : methodLayer).methInfo.getNextLayer ⟨greet, 2⟩ = none) ∧
    ((⟨greet, 2⟩ : methodLayer).index + 1 < (⟨greet, 2⟩ : methodLayer).methInfo.layers.length →
      (ctxOf [⟨greet, 2⟩, ⟨greet, 1⟩, greet.topLayer]).Super =
        Except.ok { ctxOf [⟨greet, 2⟩, ⟨greet, 1⟩, greet.topLayer] with callStack :=
          { methInfo := (⟨greet, 2⟩ : methodLayer).methInfo,
            index := (⟨greet, 2⟩ : methodLayer).index + 1 } ::
            (ctxOf [⟨greet, 2⟩, ⟨greet, 1⟩, greet.topLayer]).callStack }) ∧
    (∀ (rc2 : RecordCollection) (rest2 : List methodLayer),
      rc2.callStack = ⟨greet, 2⟩ :: rest2 →
      rc2.model = (ctxOf [⟨greet, 2⟩, ⟨greet, 1⟩, greet.topLayer]).model →
      ((∃ p, (ctxOf [⟨greet, 2⟩, ⟨greet, 1⟩, greet.topLayer]).Super = Except.error p ∧
          rc2.Super = Except.error p) ∨
       (∃ r r2, (ctxOf [⟨greet, 2⟩, ⟨greet, 1⟩, greet.topLayer]).Super = Except.ok r ∧
          rc2.Super = Except.ok r2 ∧ r.callStack.head? = r2.callStack.head?))) :=
  C11_no_parent_layer (ctxOf [⟨greet, 2⟩, ⟨greet, 1⟩, greet.topLayer]) ⟨greet, 2⟩
    [⟨greet, 1⟩, greet.topLayer] rfl

/-- C12. Empty Call Stack: on a context whose call stack is empty, `Super`
fails with the panic "Empty call stack" naming the model, and returns no
context, whatever the model and its chains; the base-layer panic is never
raised on an empty stack. -/
theorem C12_empty_call_stack (rc : RecordCollection) (hempty : rc.callStack = []) :
    rc.Super = Except.error (LogAndPanic "Empty call stack" [("model", rc.model.name)]) ∧
    (∀ rc1, rc.Super ≠ Except.ok rc1) ∧
    (∀ p, rc.Super = Except.error p → p.msg ≠ "Called Super() on a base method") := by
  have h : rc.Super =
      Except.error (LogAndPanic "Empty call stack" [("model", rc.model.name)]) := by
    unfold RecordCollection.Super
    rw [hempty]
  refine ⟨h, ?_, ?_⟩
  · intro rc1 hok
    rw [h] at hok
    cases hok
  · intro p hp
    rw [h] at hp
    injection hp with hp
    rw [← hp]
    show "Empty call stack" ≠ "Called Super() on a base method"
    decide

/-- Witness of C12 on the model `person`. -/
theorem C12_empty_call_stack_witness :
    (ctxOf []).Super =
      Except.error (LogAndPanic "Empty call stack" [("model", (ctxOf []).model.name)]) ∧
    (∀ rc1, (ctxOf []).Super ≠ Except.ok rc1) ∧
    (∀ p, (ctxOf []).Super = Except.error p → p.msg ≠ "Called Super() on a base method") :=
  C12_empty_call_stack (ctxOf []) rfl

/-- C13. Single-result variant: `Call` leaves the world exactly as `CallMulti`
does on the same input (it invokes the same layer with the same context and
arguments, once); when `CallMulti` returns a result, `Call` returns its first
element if there is one and the absent value (nil) if it is empty; and `Call`
fails exactly when `CallMulti` fails, with the same panic. -/
theorem C13_call_returns_first_result {σ : Type} (invoke : Invoker σ)
    (rc : RecordCollection) (m : String) (args : List Value) (w : σ) :
    (rc.Call invoke m args w).2 = (rc.CallMulti invoke m args w).2 ∧
    (∀ res, (rc.CallMulti invoke m args w).1 = Except.ok res →
      (res = [] → (rc.Call invoke m args w).1 = Except.ok Value.null) ∧
      (∀ r rs, res = r :: rs → (rc.Call invoke m args w).1 = Except.ok r) ∧
      (rc.Call invoke m args w).1 = Except.ok (res.headD Value.null)) ∧
    (∀ p, (rc.Call invoke m args w).1 = Except.error p ↔
      (rc.CallMulti invoke m args w).1 = Except.error p) := by
  unfold RecordCollection.Call
  rcases hcm : rc.CallMulti invoke m args w with ⟨r, w1⟩
  cases r with
  | error q =>
    refine ⟨rfl, ?_, ?_⟩
    · intro res hres
      cases hres
    · intro p
      constructor <;> intro h <;> injection h with h <;> rw [h]
  | ok res =>
    cases res with
    | nil =>
      refine ⟨rfl, ?_, ?_⟩
      · intro res hres
        injection hres with hres
        subst hres
        refine ⟨fun _ => rfl, ?_, rfl⟩
        intro r rs h
        cases h
      · intro p
        constructor <;> intro h <;> cases h
    | cons a rest =>
      refine ⟨rfl, ?_, ?_⟩
      · intro res hres
        injection hres with hres
        subst hres
        refine ⟨?_, ?_, rfl⟩
        · intro h
          cases h
        intro r rs h
        injection h with h1 h2
        rw [h1]
      · intro p
        constructor <;> intro h <;> cases h

/-- The context and the layer `CallMulti` resolves (lines 40-44): the existing
frame with the input context, or the top layer with the pushed context. -/
theorem CallMulti_resolved {σ : Type} (invoke : Invoker σ) (rc rc1 : RecordCollection)
    (m : String) (methInfo : methodInfo) (ml : methodLayer) (args : List Value) (w : σ)
    (hreg : rc.model.methods.get m = some methInfo)
    (hml : (rc.getExistingLayer methInfo = some ml ∧ rc1 = rc) ∨
      (rc.getExistingLayer methInfo = none ∧ ml = methInfo.topLayer ∧
        rc1 = { rc with callStack := methInfo.topLayer :: rc.callStack })) :
    rc.CallMulti invoke m args w = rc1.callMulti invoke ml args w := by
  rcases hml with ⟨hex, hrc⟩ | ⟨hex, hl, hrc⟩
  · rw [hrc]
    exact CallMulti_existing invoke rc m methInfo ml args w hreg hex
  · rw [hrc, hl]
    exact CallMulti_fresh invoke rc m methInfo args w hreg hex

/-- C14. Result shaping of the multi-result call: let `ml` be the layer
`CallMulti` invokes and `rc1` the context it hands over (the existing frame
with the input context, or the top layer with the pushed context). When the
implementation of `ml` returns the values `retVal`, `CallMulti` returns exactly
`retVal`: the same values in the same order and number; an implementation
returning no value gives the empty result, not a failure. -/
theorem C14_result_shaping {σ : Type} (invoke : Invoker σ) (rc rc1 : RecordCollection)
    (m : String) (methInfo : methodInfo) (ml : methodLayer) (fn : Nat)
    (args retVal : List Value) (w w1 : σ)
    (hreg : rc.model.methods.get m = some methInfo)
    (hml : (rc.getExistingLayer methInfo = some ml ∧ rc1 = rc) ∨
      (rc.getExistingLayer methInfo = none ∧ ml = methInfo.topLayer ∧
        rc1 = { rc with callStack := methInfo.topLayer :: rc.callStack }))
    (hf : ml.funcValue = some fn)
    (hret : invoke fn (Value.rc rc1 :: args) w = (Except.ok retVal, w1)) :
    rc.CallMulti invoke m args w = (Except.ok retVal, w1) ∧
    rc1.callMulti invoke ml args w = (Except.ok retVal, w1) ∧
    (retVal = [] → rc.CallMulti invoke m args w = (Except.ok [], w1)) := by
  have h1 : rc1.callMulti invoke ml args w = (Except.ok retVal, w1) := by
    rw [callMulti_eq_invoke invoke rc1 ml fn args w hf, hret]
  have h0 : rc.CallMulti invoke m args w = (Except.ok retVal, w1) := by
    rw [CallMulti_resolved invoke rc rc1 m methInfo ml args w hreg hml, h1]
  refine ⟨h0, h1, ?_⟩
  intro hnil
  rw [h0, hnil]

/-- Witness of C14: the top layer of "greet" returns its two arguments. -/
theorem C14_result_shaping_witness :
    (ctxOf []).CallMulti echo "greet" [Value.int 3] 0 =
      (Except.ok [Value.rc (ctxOf [greet.topLayer]), Value.int 3], 1) ∧
    (ctxOf [greet.topLayer]).callMulti echo greet.topLayer [Value.int 3] 0 =
      (Except.ok [Value.rc (ctxOf [greet.topLayer]), Value.int 3], 1) ∧
    ([Value.rc (ctxOf [greet.topLayer]), Value.int 3] = [] →
      (ctxOf []).CallMulti echo "greet" [Value.int 3] 0 = (Except.ok [], 1)) :=
  C14_result_shaping echo (ctxOf []) (ctxOf [greet.topLayer]) "greet" greet greet.topLayer 13
    [Value.int 3] [Value.rc (ctxOf [greet.topLayer]), Value.int 3] 0 1
    rfl (Or.inr ⟨rfl, rfl, rfl⟩) rfl rfl

/-- C15. Argument assembly: let `ml` be the layer `CallMulti` invokes and `rc1`
the context the dispatcher resolved (the input context when a frame existed,
the context with the pushed frame otherwise). The argument slice built by
`callMulti` is `rc1` followed by `args` in their order, so it has
`len(args)+1` elements, and `CallMulti` is the call of the implementation of
`ml` on exactly that slice, for every implementation and every world. -/
theorem C15_argument_assembly (rc rc1 : RecordCollection)
    (m : String) (methInfo : methodInfo) (ml : methodLayer) (fn : Nat) (args : List Value)
    (hreg : rc.model.methods.get m = some methInfo)
    (hml : (rc.getExistingLayer methInfo = some ml ∧ rc1 = rc) ∨
      (rc.getExistingLayer methInfo = none ∧ ml = methInfo.topLayer ∧
        rc1 = { rc with callStack := methInfo.topLayer :: rc.callStack }))
    (hf : ml.funcValue = some fn) :
    fillInVals args 0 ((List.replicate (args.length + 1) Value.null).set 0 (Value.rc rc1)) =
      Value.rc rc1 :: args ∧
    (fillInVals args 0
      ((List.replicate (args.length + 1) Value.null).set 0 (Value.rc rc1))).length =
      args.length + 1 ∧
    (∀ (σ : Type) (invoke : Invoker σ) (w : σ),
      rc.CallMulti invoke m args w = invoke fn (Value.rc rc1 :: args) w) := by
  refine ⟨inVals_assembled rc1 args, ?_, ?_⟩
  · rw [inVals_assembled rc1 args]
    rfl
  · intro σ invoke w
    rw [CallMulti_resolved invoke rc rc1 m methInfo ml args w hreg hml,
      callMulti_eq_invoke invoke rc1 ml fn args w hf]

/-- Witness of C15: "greet" called with two arguments while "farewell" called
from L3 is running; the existing frame L3 receives three arguments. -/
theorem C15_argument_assembly_witness :
    fillInVals [Value.int 3, Value.str "x"] 0
        ((List.replicate ([Value.int 3, Value.str "x"].length + 1) Value.null).set 0
          (Value.rc (ctxOf [farewell.topLayer, greet.topLayer]))) =
      Value.rc (ctxOf [farewell.topLayer, greet.topLayer]) :: [Value.int 3, Value.str "x"] ∧
    (fillInVals [Value.int 3, Value.str "x"] 0
        ((List.replicate ([Value.int 3, Value.str "x"].length + 1) Value.null).set 0
          (Value.rc (ctxOf [farewell.topLayer, greet.topLayer])))).length =
      [Value.int 3, Value.str "x"].length + 1 ∧
    (∀ (σ : Type) (invoke : Invoker σ) (w : σ),
      (ctxOf [farewell.topLayer, greet.topLayer]).CallMulti invoke "greet"
          [Value.int 3, Value.str "x"] w =
        invoke 13 (Value.rc (ctxOf [farewell.topLayer, greet.topLayer]) ::
          [Value.int 3, Value.str "x"]) w) :=
  C15_argument_assembly (ctxOf [farewell.topLayer, greet.topLayer])
    (ctxOf [farewell.topLayer, greet.topLayer]) "greet" greet greet.topLayer 13
    [Value.int 3, Value.str "x"] rfl (Or.inl ⟨rfl, rfl⟩) rfl

/-! ## Shape of reachable call stacks -/

theorem getExistingLayer_eq_head_framesOf (rc : RecordCollection) (methInfo : methodInfo) :
    rc.getExistingLayer methInfo = (framesOf rc.callStack methInfo).head? := by
  unfold RecordCollection.getExistingLayer framesOf
  induction rc.callStack with
  | nil => rfl
  | cons x xs ih =>
    by_cases hx : x.methInfo = methInfo
    · simp [List.find?_cons, List.filter_cons, hx]
    · simp only [List.find?_cons, List.filter_cons, hx, decide_False]
      exact ih

theorem framesOf_cons_self (ml : methodLayer) (stack : List methodLayer) :
    framesOf (ml :: stack) ml.methInfo = ml :: framesOf stack ml.methInfo := by
  unfold framesOf
  simp [List.filter_cons]

theorem framesOf_cons_other (ml : methodLayer) (stack : List methodLayer)
    (methInfo : methodInfo) (h : ml.methInfo ≠ methInfo) :
    framesOf (ml :: stack) methInfo = framesOf stack methInfo := by
  unfold framesOf
  simp [List.filter_cons, h]

theorem chainFrames_length (methInfo : methodInfo) (k : Nat) :
    (chainFrames methInfo k).length = k + 1 := by
  induction k with
  | zero => rfl
  | succ j ih => simp [chainFrames, ih]

theorem chainFrames_reverse (methInfo : methodInfo) (k : Nat) :
    (chainFrames methInfo k).reverse =
      (List.range (k + 1)).map (fun i => ({ methInfo := methInfo, index := i } : methodLayer)) := by
  induction k with
  | zero => rfl
  | succ j ih =>
    rw [List.range_succ, List.map_append]
    simp only [chainFrames, List.reverse_cons, ih, List.map_cons, List.map_nil]

theorem chainFrames_index_le (methInfo : methodInfo) (k : Nat) :
    ∀ f ∈ chainFrames methInfo k, f.methInfo = methInfo ∧ f.index ≤ k := by
  induction k with
  | zero =>
    intro f hf
    simp only [chainFrames, List.mem_singleton] at hf
    rw [hf]
    exact ⟨rfl, Nat.le_refl 0⟩
  | succ j ih =>
    intro f hf
    simp only [chainFrames, List.mem_cons] at hf
    rcases hf with hf | hf
    · rw [hf]
      exact ⟨rfl, Nat.le_refl _⟩
    · exact ⟨(ih f hf).1, Nat.le_succ_of_le (ih f hf).2⟩

theorem shape_push (stack : List methodLayer) (mi0 methInfo : methodInfo)
    (hnone : framesOf stack mi0 = []) (hpos : 0 < mi0.layers.length)
    (h : ChainShape stack methInfo) :
    ChainShape (mi0.topLayer :: stack) methInfo := by
  unfold ChainShape at h ⊢
  by_cases hmi : mi0 = methInfo
  · right
    subst hmi
    refine ⟨0, hpos, ?_⟩
    have hc : framesOf (mi0.topLayer :: stack) mi0 = mi0.topLayer :: framesOf stack mi0 :=
      framesOf_cons_self mi0.topLayer stack
    rw [hc, hnone]
    rfl
  · have hc : framesOf (mi0.topLayer :: stack) methInfo = framesOf stack methInfo :=
      framesOf_cons_other mi0.topLayer stack methInfo hmi
    rw [hc]
    exact h

theorem shape_super (ml : methodLayer) (rest : List methodLayer) (methInfo : methodInfo)
    (hlt : ml.index + 1 < ml.methInfo.layers.length)
    (h : ChainShape (ml :: rest) methInfo) :
    ChainShape ({ methInfo := ml.methInfo, index := ml.index + 1 } :: ml :: rest) methInfo := by
  unfold ChainShape at h ⊢
  by_cases hmi : ml.methInfo = methInfo
  · right
    subst hmi
    have hc : framesOf
        (({ methInfo := ml.methInfo, index := ml.index + 1 } : methodLayer) :: ml :: rest)
        ml.methInfo =
        ({ methInfo := ml.methInfo, index := ml.index + 1 } : methodLayer) ::
          framesOf (ml :: rest) ml.methInfo :=
      framesOf_cons_self { methInfo := ml.methInfo, index := ml.index + 1 } (ml :: rest)
    rcases h with hnil | ⟨k, _, hk⟩
    · rw [framesOf_cons_self] at hnil
      cases hnil
    · obtain ⟨tl, htl⟩ := chainFrames_front ml.methInfo k
      have hk2 := hk
      rw [framesOf_cons_self, htl] at hk2
      injection hk2 with hhead _
      have hidx : ml.index = k := by rw [hhead]
      refine ⟨k + 1, by rw [← hidx]; exact hlt, ?_⟩
      rw [hc, hk, hidx]
      rfl
  · have hc : framesOf
        (({ methInfo := ml.methInfo, index := ml.index + 1 } : methodLayer) :: ml :: rest)
        methInfo = framesOf (ml :: rest) methInfo :=
      framesOf_cons_other { methInfo := ml.methInfo, index := ml.index + 1 } (ml :: rest)
        methInfo hmi
    rw [hc]
    exact h

/-- In a reachable call stack, when every registered chain has at least one
layer, the frames of a chain are absent or are the layers `k, ..., 0`. -/
theorem reachable_shape (rc : RecordCollection) (h : Reachable rc) :
    (∀ mi ∈ rc.model.methods.registry, mi.layers ≠ []) →
    ∀ methInfo, ChainShape rc.callStack methInfo := by
  induction h with
  | empty rc hempty =>
    intro _ methInfo
    left
    rw [hempty]
    rfl
  | push rc m mi0 _ hreg hex ih =>
    intro hwf methInfo
    have hnone : framesOf rc.callStack mi0 = [] := by
      have hh := getExistingLayer_eq_head_framesOf rc mi0
      rw [hex] at hh
      cases hfr : framesOf rc.callStack mi0 with
      | nil => rfl
      | cons a as => rw [hfr] at hh; cases hh
    have hmem : mi0 ∈ rc.model.methods.registry := List.mem_of_find?_eq_some hreg
    exact shape_push rc.callStack mi0 methInfo hnone
      (List.length_pos.mpr (hwf mi0 hmem)) (ih hwf methInfo)
  | super rc rc1 _ hs ih =>
    intro hwf methInfo
    obtain ⟨ml, rest, hstack, hlt, hrc1⟩ := Super_ok_inv rc rc1 hs
    subst hrc1
    have ih1 := ih hwf methInfo
    rw [hstack] at ih1
    have hs2 := shape_super ml rest methInfo hlt ih1
    rw [← hstack] at hs2
    exact hs2

/-- The stack [farewell.top, greet.L2, greet.L3] is reached by calling
"farewell" from layer L2 of "greet". -/
theorem reachable_farewell_from_greet :
    Reachable (ctxOf [farewell.topLayer, ⟨greet, 1⟩, greet.topLayer]) :=
  Reachable.push (ctxOf [⟨greet, 1⟩, greet.topLayer]) "farewell" farewell
    reachable_greet_two rfl rfl

/-- C16. Shape of every reachable call stack. In a call stack reachable from
the empty one by the frame push of `CallMulti` and successful `Super` steps, in
a model whose registered chains all have at least one layer, the frames of any
chain are either absent (and `getExistingLayer` finds nothing) or, read from
the back of the stack to the front, the layers at positions `0, 1, ..., k` of
the chain for some `k` below the number of layers. In the latter case the frame
`getExistingLayer` finds is the layer at position `k`, the least specific one
reached, and no frame of the chain lies further along the chain. The frames of
a chain are pairwise distinct and no more numerous than its layers. -/
theorem C16_reachable_stack_shape (rc : RecordCollection) (methInfo : methodInfo)
    (h : Reachable rc)
    (hwf : ∀ mi ∈ rc.model.methods.registry, mi.layers ≠ []) :
    ((framesOf rc.callStack methInfo = [] ∧ rc.getExistingLayer methInfo = none) ∨
      ∃ k, k < methInfo.layers.length ∧
        (framesOf rc.callStack methInfo).reverse =
          (List.range (k + 1)).map
            (fun i => ({ methInfo := methInfo, index := i } : methodLayer)) ∧
        rc.getExistingLayer methInfo = some { methInfo := methInfo, index := k } ∧
        (∀ f ∈ framesOf rc.callStack methInfo, f.index ≤ k) ∧
        (framesOf rc.callStack methInfo).length = k + 1) ∧
    (framesOf rc.callStack methInfo).Nodup ∧
    (framesOf rc.callStack methInfo).length ≤ methInfo.layers.length := by
  have hnodup : (framesOf rc.callStack methInfo).Nodup :=
    List.Nodup.filter _ (ordered_nodup rc.callStack (reachable_ordered rc h))
  have hhead := getExistingLayer_eq_head_framesOf rc methInfo
  rcases reachable_shape rc h hwf methInfo with hnil | ⟨k, hk, hfr⟩
  · refine ⟨Or.inl ⟨hnil, ?_⟩, hnodup, ?_⟩
    · rw [hhead, hnil]
      rfl
    · rw [hnil]
      exact Nat.zero_le _
  · refine ⟨Or.inr ⟨k, hk, ?_, ?_, ?_, ?_⟩, hnodup, ?_⟩
    · rw [hfr]
      exact chainFrames_reverse methInfo k
    · obtain ⟨tl, htl⟩ := chainFrames_front methInfo k
      rw [hhead, hfr, htl]
      rfl
    · intro f hf
      rw [hfr] at hf
      exact (chainFrames_index_le methInfo k f hf).2
    · rw [hfr]
      exact chainFrames_length methInfo k
    · rw [hfr, chainFrames_length]
      exact hk

/-- Witness of C16: the frames of "greet" in [farewell.top, greet.L2, greet.L3]. -/
theorem C16_reachable_stack_shape_witness :
    ((framesOf (ctxOf [farewell.topLayer, ⟨greet, 1⟩, greet.topLayer]).callStack greet = [] ∧
        (ctxOf [farewell.topLayer, ⟨greet, 1⟩, greet.topLayer]).getExistingLayer greet = none) ∨
      ∃ k, k < greet.layers.length ∧
        (framesOf (ctxOf [farewell.topLayer, ⟨greet, 1⟩, greet.topLayer]).callStack greet).reverse =
          (List.range (k + 1)).map
            (fun i => ({ methInfo := greet, index := i } : methodLayer)) ∧
        (ctxOf [farewell.topLayer, ⟨greet, 1⟩, greet.topLayer]).getExistingLayer greet =
          some { methInfo := greet, index := k } ∧
        (∀ f ∈ framesOf (ctxOf [farewell.topLayer, ⟨greet, 1⟩, greet.topLayer]).callStack greet,
          f.index ≤ k) ∧
        (framesOf (ctxOf [farewell.topLayer, ⟨greet, 1⟩, greet.topLayer]).callStack
          greet).length = k + 1) ∧
    (framesOf (ctxOf [farewell.topLayer, ⟨greet, 1⟩, greet.topLayer]).callStack greet).Nodup ∧
    (framesOf (ctxOf [farewell.topLayer, ⟨greet, 1⟩, greet.topLayer]).callStack greet).length ≤
      greet.layers.length :=
  C16_reachable_stack_shape (ctxOf [farewell.topLayer, ⟨greet, 1⟩, greet.topLayer]) greet
    reachable_farewell_from_greet (by decide)

/-- C17. Exact result of `Super`: whenever `Super` succeeds, the call stack of
the returned record collection is the next layer of the front frame prepended
to the entire input call stack, so the old front frame is now the second frame
and the length has grown by exactly one; the model and every other field are
those of the input. -/
theorem C17_super_exact_result (rc rc1 : RecordCollection)
    (h : rc.Super = Except.ok rc1) :
    ∃ ml rest next, rc.callStack = ml :: rest ∧
      ml.methInfo.getNextLayer ml = some next ∧
      rc1.callStack = next :: rc.callStack ∧
      rc1.callStack = next :: ml :: rest ∧
      rc1.callStack.get? 1 = some ml ∧
      rc1.callStack.length = rc.callStack.length + 1 ∧
      rc1.model = rc.model ∧
      rc1.handle = rc.handle ∧
      rc1 = { rc with callStack := next :: rc.callStack } := by
  obtain ⟨ml, rest, hstack, hlt, hrc1⟩ := Super_ok_inv rc rc1 h
  refine ⟨ml, rest, { methInfo := ml.methInfo, index := ml.index + 1 }, hstack,
    getNextLayer_self ml hlt, ?_, ?_, ?_, ?_, ?_, ?_, hrc1⟩
  · rw [hrc1]
  · rw [hrc1, hstack]
  · rw [hrc1, hstack]
    rfl
  · rw [hrc1]
    rfl
  · rw [hrc1]
  · rw [hrc1]

/-- Witness of C17: `Super` inside "farewell" called from L2 of "greet". -/
theorem C17_super_exact_result_witness :
    ∃ ml rest next,
      (ctxOf [farewell.topLayer, ⟨greet, 1⟩, greet.topLayer]).callStack = ml :: rest ∧
      ml.methInfo.getNextLayer ml = some next ∧
      (ctxOf [⟨farewell, 1⟩, farewell.topLayer, ⟨greet, 1⟩, greet.topLayer]).callStack =
        next :: (ctxOf [farewell.topLayer, ⟨greet, 1⟩, greet.topLayer]).callStack ∧
      (ctxOf [⟨farewell, 1⟩, farewell.topLayer, ⟨greet, 1⟩, greet.topLayer]).callStack =
        next :: ml :: rest ∧
      (ctxOf [⟨farewell, 1⟩, farewell.topLayer, ⟨greet, 1⟩, greet.topLayer]).callStack.get? 1 =
        some ml ∧
      (ctxOf [⟨farewell, 1⟩, farewell.topLayer, ⟨greet, 1⟩, greet.topLayer]).callStack.length =
        (ctxOf [farewell.topLayer, ⟨greet, 1⟩, greet.topLayer]).callStack.length + 1 ∧
      (ctxOf [⟨farewell, 1⟩, farewell.topLayer, ⟨greet, 1⟩, greet.topLayer]).model =
        (ctxOf [farewell.topLayer, ⟨greet, 1⟩, greet.topLayer]).model ∧
      (ctxOf [⟨farewell, 1⟩, farewell.topLayer, ⟨greet, 1⟩, greet.topLayer]).handle =
        (ctxOf [farewell.topLayer, ⟨greet, 1⟩, greet.topLayer]).handle ∧
      ctxOf [⟨farewell, 1⟩, farewell.topLayer, ⟨greet, 1⟩, greet.topLayer] =
        { ctxOf [farewell.topLayer, ⟨greet, 1⟩, greet.topLayer] with
          callStack := next :: (ctxOf [farewell.topLayer, ⟨greet, 1⟩, greet.topLayer]).callStack } :=
  C17_super_exact_result (ctxOf [farewell.topLayer, ⟨greet, 1⟩, greet.topLayer])
    (ctxOf [⟨farewell, 1⟩, farewell.topLayer, ⟨greet, 1⟩, greet.topLayer]) rfl

/-- C18. `Super` affects only the dispatch of the current operation: when
`Super` succeeds on a context with front frame `ml`, for every chain other than
the chain of `ml` the frame `getExistingLayer` finds is the same before and
after, so the layer `CallMulti` resolves for a method registered with that
chain (that frame, or the top layer when there is none) is the same layer on
the context returned by `Super` as on the original context. -/
theorem C18_super_leaves_other_chains (rc rc1 : RecordCollection) (ml : methodLayer)
    (rest : List methodLayer) (methInfo : methodInfo)
    (hs : rc.Super = Except.ok rc1)
    (hstack : rc.callStack = ml :: rest)
    (hother : methInfo ≠ ml.methInfo) :
    rc1.getExistingLayer methInfo = rc.getExistingLayer methInfo ∧
    ∀ m, rc.model.methods.get m = some methInfo →
      ∃ (l : methodLayer) (c c1 : RecordCollection),
        l = (rc.getExistingLayer methInfo).getD methInfo.topLayer ∧
        l = (rc1.getExistingLayer methInfo).getD methInfo.topLayer ∧
        ∀ (σ : Type) (invoke : Invoker σ) (args : List Value) (w : σ),
          rc.CallMulti invoke m args w = c.callMulti invoke l args w ∧
          rc1.CallMulti invoke m args w = c1.callMulti invoke l args w := by
  obtain ⟨ml2, rest2, hstack2, _, hrc1⟩ := Super_ok_inv rc rc1 hs
  have hml : ml2 = ml := by
    rw [hstack] at hstack2
    injection hstack2 with h1 _
    exact h1.symm
  subst hml
  have hex : rc1.getExistingLayer methInfo = rc.getExistingLayer methInfo := by
    rw [hrc1]
    unfold RecordCollection.getExistingLayer
    have hne : ¬ ml2.methInfo = methInfo := fun h => hother h.symm
    simp only [List.find?_cons, hne, decide_False]
  refine ⟨hex, ?_⟩
  intro m hreg
  have hreg1 : rc1.model.methods.get m = some methInfo := by rw [hrc1]; exact hreg
  cases hfound : rc.getExistingLayer methInfo with
  | some l =>
    have hfound1 : rc1.getExistingLayer methInfo = some l := by rw [hex, hfound]
    refine ⟨l, rc, rc1, rfl, ?_, ?_⟩
    · rw [hfound1]
      rfl
    · intro σ invoke args w
      exact ⟨CallMulti_existing invoke rc m methInfo l args w hreg hfound,
        CallMulti_existing invoke rc1 m methInfo l args w hreg1 hfound1⟩
  | none =>
    have hfound1 : rc1.getExistingLayer methInfo = none := by rw [hex, hfound]
    refine ⟨methInfo.topLayer, { rc with callStack := methInfo.topLayer :: rc.callStack },
      { rc1 with callStack := methInfo.topLayer :: rc1.callStack }, rfl, ?_, ?_⟩
    · rw [hfound1]
      rfl
    · intro σ invoke args w
      exact ⟨CallMulti_fresh invoke rc m methInfo args w hreg hfound,
        CallMulti_fresh invoke rc1 m methInfo args w hreg1 hfound1⟩

/-- Witness of C18: `Super` inside "farewell" leaves the frame found for
"greet" at L2. -/
theorem C18_super_leaves_other_chains_witness :
    (ctxOf [⟨farewell, 1⟩, farewell.topLayer, ⟨greet, 1⟩, greet.topLayer]).getExistingLayer greet =
      (ctxOf [farewell.topLayer, ⟨greet, 1⟩, greet.topLayer]).getExistingLayer greet ∧
    ∀ m, (ctxOf [farewell.topLayer, ⟨greet, 1⟩, greet.topLayer]).model.methods.get m =
        some greet →
      ∃ (l : methodLayer) (c c1 : RecordCollection),
        l = ((ctxOf [farewell.topLayer, ⟨greet, 1⟩, greet.topLayer]).getExistingLayer
          greet).getD greet.topLayer ∧
        l = ((ctxOf [⟨farewell, 1⟩, farewell.topLayer, ⟨greet, 1⟩,
          greet.topLayer]).getExistingLayer greet).getD greet.topLayer ∧
        ∀ (σ : Type) (invoke : Invoker σ) (args : List Value) (w : σ),
          (ctxOf [farewell.topLayer, ⟨greet, 1⟩, greet.topLayer]).CallMulti invoke m args w =
            c.callMulti invoke l args w ∧
          (ctxOf [⟨farewell, 1⟩, farewell.topLayer, ⟨greet, 1⟩, greet.topLayer]).CallMulti
            invoke m args w = c1.callMulti invoke l args w :=
  C18_super_leaves_other_chains (ctxOf [farewell.topLayer, ⟨greet, 1⟩, greet.topLayer])
    (ctxOf [⟨farewell, 1⟩, farewell.topLayer, ⟨greet, 1⟩, greet.topLayer])
    farewell.topLayer [⟨greet, 1⟩, greet.topLayer] greet rfl rfl (by decide)

end Yep
